import Mathlib

/-!
Verification of the blog-gem-ai-2508 repository: a shallow embedding of the
server routes (`server.ts`), the Firestore service wrappers
(`src/services/firebaseService.ts`), the generation endpoint parsing
(`server.ts` / `src/services/geminiService.ts`) and the client-side pagination
state (`App.tsx`), together with theorems settling the specification claims.

The Firestore collection is modelled as a list of stored documents; the query
engine (`orderBy('createdAt', 'desc').orderBy(documentId, 'desc')`,
`startAfter`, `limit`) is modelled by a stable merge sort over the query key,
a strict "after the cursor position" filter and `take`.  JavaScript
`Date.prototype.toISOString` is modelled by the standard proleptic-Gregorian
civil-from-days computation on epoch milliseconds.
-/

namespace Blog

/-- A value stored in a document's `createdAt` field: either a Firestore
`Timestamp` (modelled by its epoch milliseconds) or some other value
(modelled by a string), for which `instanceof Timestamp` /
`typeof x.toDate === 'function'` checks fail. -/
inductive FieldVal where
  | ts (millis : Nat)
  | str (s : String)
deriving DecidableEq, Repr

/-- A document of the `articles` Firestore collection: an id plus the stored
data fields.  `createdAt = none` models a document missing the field. -/
structure StoredDoc where
  id : String
  title : String
  content : String
  keyword : String
  createdAt : Option FieldVal
deriving DecidableEq, Repr

/-- Lexicographic code-point order on character lists, the order underlying
JS string comparison and the Firestore document-id order. -/
def charListLtB : List Char → List Char → Bool
  | [], [] => false
  | [], _ :: _ => true
  | _ :: _, [] => false
  | a :: as, b :: bs => decide (a < b) || (a == b && charListLtB as bs)

/-- Strict lexicographic order on strings. -/
def strLtB (a b : String) : Bool := charListLtB a.data b.data

/-- Reflexive lexicographic order on strings. -/
def strLeB (a b : String) : Bool := strLtB a b || a == b

/-- Firestore's value order restricted to the values we model: timestamps
compare by their instant and sort before strings. -/
def fieldValLtB : FieldVal → FieldVal → Bool
  | .ts a, .ts b => decide (a < b)
  | .ts _, .str _ => true
  | .str _, .ts _ => false
  | .str a, .str b => strLtB a b

/-- Order on optional `createdAt` values: a missing field sorts below every
present value (such documents are excluded from `orderBy` results, but the
order must be total on documents). -/
def createdLtB : Option FieldVal → Option FieldVal → Bool
  | none, none => false
  | none, some _ => true
  | some _, none => false
  | some a, some b => fieldValLtB a b

/-- `docLE a b`: document `a` appears no later than document `b` in an
`orderBy('createdAt', 'desc').orderBy(documentId, 'desc')` scan —
`a.createdAt` is greater, or the fields are equal and `a.id ≥ b.id`. -/
def docLE (a b : StoredDoc) : Bool :=
  createdLtB b.createdAt a.createdAt ||
    (a.createdAt == b.createdAt && strLeB b.id a.id)

/-- `docAfterB c d`: document `d` lies strictly after the position of the
cursor document `c` in the query order (the `startAfter` condition). -/
def docAfterB (c d : StoredDoc) : Bool := !(docLE d c)

/-- Splitting of a character list at every occurrence of a separator
character (JS `String.prototype.split` with a one-character separator). -/
def splitOnCharAux (sep : Char) : List Char → List (List Char)
  | [] => [[]]
  | c :: rest =>
    match splitOnCharAux sep rest with
    | [] => [[c]]
    | g :: gs => if c = sep then [] :: g :: gs else (c :: g) :: gs

/-- JS `String.prototype.split` with a one-character separator. -/
def splitOnChar (sep : Char) (s : String) : List String :=
  (splitOnCharAux sep s.data).map String.mk

/-- JS `String.prototype.trim`: strip whitespace from both ends. -/
def jsTrim (s : String) : String :=
  String.mk (((s.data.dropWhile Char.isWhitespace).reverse.dropWhile
    Char.isWhitespace).reverse)

/-- JS `String.prototype.startsWith`. -/
def jsStartsWith (s p : String) : Bool := p.data.isPrefixOf s.data

/-- JS `String.prototype.substring(n)`: drop the first `n` units. -/
def jsDrop (s : String) (n : Nat) : String := String.mk (s.data.drop n)

/-- JS `Array.prototype.join` with a one-character separator (list form). -/
def joinWithAux (sep : Char) : List (List Char) → List Char
  | [] => []
  | [x] => x
  | x :: xs => x ++ sep :: joinWithAux sep xs

/-- JS `Array.prototype.join` with a one-character separator. -/
def joinWith (sep : Char) (l : List String) : String :=
  String.mk (joinWithAux sep (l.map String.data))

/-- Left-pad the decimal representation of `n` with zeros to width `w`
(the padding used by `Date.prototype.toISOString`). -/
def padNum (w n : Nat) : String :=
  let s := toString n
  String.mk (List.replicate (w - s.length) '0') ++ s

/-- A proleptic-Gregorian calendar date. -/
structure CivilDate where
  year : Nat
  month : Nat
  day : Nat
deriving DecidableEq, Repr

/-- Year-of-era of a day-of-era (Howard Hinnant's `civil_from_days`
computation, as performed inside the JavaScript date formatting that
`Timestamp.toDate().toISOString()` triggers). -/
def yearOfEraNum (doe : Nat) : Nat :=
  (doe - doe / 1460 + doe / 36524 - doe / 146096) / 365

/-- Convert days since 1970-01-01 to a civil date (proleptic Gregorian,
UTC), the arithmetic behind `Date.prototype.toISOString`. -/
def civilFromDays (z : Nat) : CivilDate :=
  let zz := z + 719468
  let era := zz / 146097
  let doe := zz % 146097
  let yoe := yearOfEraNum doe
  let y := yoe + era * 400
  let doy := doe - (365 * yoe + yoe / 4 - yoe / 100)
  let mp := (5 * doy + 2) / 153
  let d := doy - (153 * mp + 2) / 5 + 1
  let m := if mp < 10 then mp + 3 else mp - 9
  ⟨if m ≤ 2 then y + 1 else y, m, d⟩

/-- Assemble an ISO-8601 UTC timestamp string `YYYY-MM-DDTHH:MM:SS.mmmZ`. -/
def isoFormat (y m d h mi s ms : Nat) : String :=
  padNum 4 y ++ "-" ++ padNum 2 m ++ "-" ++ padNum 2 d ++ "T" ++
  padNum 2 h ++ ":" ++ padNum 2 mi ++ ":" ++ padNum 2 s ++ "." ++ padNum 3 ms ++ "Z"

/-- `Date.prototype.toISOString` on an epoch-millisecond instant (instants
from the epoch onwards, which covers every Firestore server timestamp this
application stores). -/
def toISOString (millis : Nat) : String :=
  let dt := civilFromDays (millis / 86400000)
  isoFormat dt.year dt.month dt.day (millis / 3600000 % 24) (millis / 60000 % 60)
    (millis / 1000 % 60) (millis % 1000)

/-- Gregorian leap-year rule. -/
def isLeapYear (y : Nat) : Bool :=
  y % 4 == 0 && (y % 100 != 0 || y % 400 == 0)

/-- Number of days of month `m` of year `y`. -/
def daysInMonth (y m : Nat) : Nat :=
  if m = 2 then (if isLeapYear y then 29 else 28)
  else if m = 4 ∨ m = 6 ∨ m = 9 ∨ m = 11 then 30
  else 31

/-- A string is a valid ISO-8601 UTC timestamp: it is the canonical
`YYYY-MM-DDTHH:MM:SS.mmmZ` rendering of in-range calendar and clock
components (day valid for its month, February 29 only in leap years). -/
def IsValidIso8601 (str : String) : Prop :=
  ∃ y m d h mi s ms : Nat,
    1 ≤ m ∧ m ≤ 12 ∧ 1 ≤ d ∧ d ≤ daysInMonth y m ∧
    h < 24 ∧ mi < 60 ∧ s < 60 ∧ ms < 1000 ∧ str = isoFormat y m d h mi s ms

/-- Start day (within an era) of year-of-era `y`: days contributed by the
`y` preceding March-based years, including their leap days. -/
def startOfYearOfEra (y : Nat) : Nat :=
  365 * y + y / 4 - y / 100 + y / 400

/-- Bounded check used (via `decide`) to validate the month/day extraction
from a day-of-year: month in range, day in range for the month, and a
February 29 forced to be the 366th day of the March-based year. -/
def doyMonthDayOk (doy : Nat) : Bool :=
  let mp := (5 * doy + 2) / 153
  let d := doy - (153 * mp + 2) / 5 + 1
  let m := if mp < 10 then mp + 3 else mp - 9
  1 ≤ m && m ≤ 12 && 1 ≤ d &&
    (if m = 2 then (d ≤ 28 || (d == 29 && doy == 365))
     else if m = 4 ∨ m = 6 ∨ m = 9 ∨ m = 11 then d ≤ 30
     else d ≤ 31)

/-- An article as returned over the API: `createdAt` serialised to an
ISO-8601 string. -/
structure Article where
  id : String
  title : String
  content : String
  keyword : String
  createdAt : String
deriving DecidableEq, Repr

/-- The article mapping performed by `getArticles` / `getArticleById` and by
the `/api/articles` routes: a stored `Timestamp` is serialised with
`toDate().toISOString()`; a missing or non-`Timestamp` `createdAt` is
replaced by `new Date().toISOString()` (the clock `now`). -/
def toArticle (now : Nat) (d : StoredDoc) : Article :=
  { id := d.id, title := d.title, content := d.content, keyword := d.keyword,
    createdAt :=
      match d.createdAt with
      | some (.ts t) => toISOString t
      | _ => toISOString now }

/-- The document sequence produced by
`orderBy('createdAt', 'desc').orderBy(documentId, 'desc')`: documents
missing the ordered-by field are excluded, the rest are sorted by the query
key. -/
def firestoreSort (coll : List StoredDoc) : List StoredDoc :=
  (coll.filter (fun d => d.createdAt.isSome)).insertionSort
    (fun a b => docLE a b = true)

/-- `getArticles` of `firebaseService.ts` (document level): the ordered
query, resumed strictly after the cursor document when one is given, limited
to `pageSize`.  The returned documents are also the cursor candidates
(`docs`). -/
def getArticles (coll : List StoredDoc) (pageSize : Nat)
    (startAfterDoc : Option StoredDoc) : List StoredDoc :=
  let base := firestoreSort coll
  let afterCursor :=
    match startAfterDoc with
    | none => base
    | some c => base.filter (fun d => docAfterB c d)
  afterCursor.take pageSize

/-- The `articles` array returned by `getArticles`. -/
def getArticlesMapped (coll : List StoredDoc) (pageSize : Nat)
    (startAfterDoc : Option StoredDoc) (now : Nat) : List Article :=
  (getArticles coll pageSize startAfterDoc).map (toArticle now)

/-- The `GET /api/articles` route of `server.ts`: the `startAfter` query
parameter names a document id; if that document exists the query resumes
after it, otherwise the cursor is ignored.  Returns the mapped articles and
`lastDocId`. -/
def serverGetArticles (coll : List StoredDoc) (limit : Nat)
    (startAfterId : Option String) (now : Nat) : List Article × Option String :=
  let base := firestoreSort coll
  let afterCursor : List StoredDoc :=
    match startAfterId with
    | some sid =>
      match coll.find? (fun (d : StoredDoc) => d.id == sid) with
      | some cdoc => base.filter (fun d => docAfterB cdoc d)
      | none => base
    | none => base
  let docs := afterCursor.take limit
  (docs.map (toArticle now), docs.getLast?.map (fun (d : StoredDoc) => d.id))

/-- `getArticleById` / `GET /api/articles/:id`: fetch one document by id and
map it; `none` models the not-found (404) outcome. -/
def getArticleById (coll : List StoredDoc) (id : String) (now : Nat) :
    Option Article :=
  (coll.find? (fun d => d.id == id)).map (toArticle now)

/-- The in-memory sitemap cache of `server.ts`
(`const sitemapCache = { xml: '', timestamp: 0 }`). -/
structure SitemapCache where
  xml : String
  timestamp : Int
deriving DecidableEq, Repr

/-- `SITEMAP_CACHE_DURATION = 60 * 60 * 1000` (one hour in milliseconds). -/
def SITEMAP_CACHE_DURATION : Int := 60 * 60 * 1000

/-- Outcome of a `GET /sitemap.xml` request: the XML body, the
`SITE_BASE_URL` configuration error (500), or the build failure error
(500). -/
inductive SitemapResponse where
  | ok (xml : String)
  | configError
  | buildError
deriving DecidableEq, Repr

/-- The sort key of the sitemap's server-side sort:
`createdAt?.toDate ? createdAt.toDate() : new Date(0)`. -/
def sitemapDateOf (d : StoredDoc) : Nat :=
  match d.createdAt with
  | some (.ts t) => t
  | _ => 0

/-- Date-only part of an ISO timestamp, `toISOString().split('T')[0]`. -/
def isoDatePart (millis : Nat) : String :=
  (splitOnChar 'T' (toISOString millis)).headD ""

/-- Render the sitemap XML for a base URL and the fetched documents: the
documents sorted by `createdAt` descending (stable, missing dates treated as
the epoch), a homepage `<url>` entry, and one `<url>` entry per document
whose `createdAt` is a valid timestamp. -/
def buildSitemapXml (baseUrl : String) (docs : List StoredDoc) : String :=
  let sortedDocs := docs.insertionSort
    (fun a b => sitemapDateOf b ≤ sitemapDateOf a)
  let header := "<?xml version=\"1.0\" encoding=\"UTF-8\"?>\n<urlset xmlns=\"http://www.sitemaps.org/schemas/sitemap/0.9\">\n"
  let home := "  <url>\n    <loc>" ++ baseUrl ++ "/</loc>\n    <changefreq>daily</changefreq>\n    <priority>1.0</priority>\n  </url>\n"
  let entries := String.join (sortedDocs.map (fun d =>
    match d.createdAt with
    | some (.ts t) =>
        "  <url>\n    <loc>" ++ baseUrl ++ "/article/" ++ d.id ++ "</loc>\n    <lastmod>" ++
        isoDatePart t ++ "</lastmod>\n    <changefreq>weekly</changefreq>\n    <priority>0.8</priority>\n  </url>\n"
    | _ => ""))
  header ++ home ++ entries ++ "</urlset>"

/-- Result of one `GET /sitemap.xml` request: the cache state afterwards,
the response, and how many sitemap builds the request performed. -/
structure SitemapStep where
  cache : SitemapCache
  response : SitemapResponse
  builds : Nat
deriving DecidableEq, Repr

/-- One `GET /sitemap.xml` request (`server.ts`): serve the cached XML if it
is non-empty and younger than the TTL; otherwise check `SITE_BASE_URL`
(absent or empty is falsy), fetch the collection, rebuild, store the result
with the current time, or report a 500 on failure leaving the cache
untouched. -/
def handleSitemapRequest (cache : SitemapCache) (now : Int)
    (siteBaseUrl : Option String) (fetchResult : Except Unit (List StoredDoc)) :
    SitemapStep :=
  if cache.xml ≠ "" ∧ now - cache.timestamp < SITEMAP_CACHE_DURATION then
    ⟨cache, .ok cache.xml, 0⟩
  else if siteBaseUrl.getD "" = "" then
    ⟨cache, .configError, 0⟩
  else
    match fetchResult with
    | .error _ => ⟨cache, .buildError, 0⟩
    | .ok docs =>
      let xml := buildSitemapXml (siteBaseUrl.getD "") docs
      ⟨⟨xml, now⟩, .ok xml, 1⟩

/-- The `web` member of a grounding chunk; `none` on a field models an
absent (`undefined`) value. -/
structure WebInfo where
  uri : Option String
  title : Option String
deriving DecidableEq, Repr

/-- A grounding-metadata chunk of the generation response. -/
structure GroundingChunk where
  web : Option WebInfo
deriving DecidableEq, Repr

/-- A citation source as returned by the generate endpoint. -/
structure SourceRef where
  uri : Option String
  title : Option String
deriving DecidableEq, Repr

/-- JavaScript truthiness of an optional string: `undefined` and the empty
string are falsy. -/
def truthy : Option String → Bool
  | none => false
  | some s => decide (s ≠ "")

/-- `{ uri: chunk.web.uri, title: chunk.web.title }`: reading `.uri` off an
absent `web` throws a `TypeError`, modelled by the error case. -/
def chunkSource (c : GroundingChunk) : Except Unit SourceRef :=
  match c.web with
  | none => .error ()
  | some w => .ok ⟨w.uri, w.title⟩

/-- The `groundingChunks.map(chunk => ({uri: chunk.web.uri, title:
chunk.web.title}))` loop: the first chunk without a `web` object throws,
aborting the whole loop. -/
def mapChunks : List GroundingChunk → Except Unit (List SourceRef)
  | [] => .ok []
  | c :: cs =>
    match chunkSource c with
    | .error e => .error e
    | .ok s =>
      match mapChunks cs with
      | .error e => .error e
      | .ok rest => .ok (s :: rest)

/-- The grounding-source extraction of `POST /api/generate`:
`groundingChunks.map(...).filter(source => source.uri && source.title)`;
a thrown `TypeError` aborts the whole extraction. -/
def extractSources (chunks : List GroundingChunk) : Except Unit (List SourceRef) :=
  (mapChunks chunks).map
    (fun l => l.filter (fun s => truthy s.uri && truthy s.title))

/-- JS `Array.prototype.findIndex` (with `-1` modelled as `none`). -/
def jsFindIndex (p : String → Bool) : List String → Option Nat
  | [] => none
  | x :: xs => if p x then some 0 else (jsFindIndex p xs).map (· + 1)

/-- The fallback title template `「キーワード」について`. -/
def defaultTitle (keyword : String) : String := "「" ++ keyword ++ "」について"

/-- The markdown parsing of `POST /api/generate`: split the response into
lines, find the first line starting with `"# "`; its text (after the marker,
trimmed) becomes the title and the trimmed remaining lines the content.
Without such a line the templated title and the full text are used. -/
def parseMarkdown (keyword responseText : String) : String × String :=
  let lines := splitOnChar '\n' responseText
  match jsFindIndex (fun l => jsStartsWith l "# ") lines with
  | none => (defaultTitle keyword, responseText)
  | some i =>
      (jsTrim (jsDrop (lines.getD i "") 2),
       jsTrim (joinWith '\n' (lines.drop (i + 1))))

/-- The upstream generation response: `response.text` (`none` models an
absent/non-string value) and the grounding chunks reachable via
`response.candidates?.[0]?.groundingMetadata?.groundingChunks || []`. -/
structure GenAIResponse where
  text : Option String
  groundingChunks : List GroundingChunk
deriving DecidableEq, Repr

/-- Outcome of `POST /api/generate`: 400 for a missing/empty keyword, 500
for a missing API key, 500 for any generation failure, or the JSON payload
`{ title, content, sources }`. -/
inductive GenResult where
  | badRequest
  | configError
  | genError
  | ok (title content : String) (sources : List SourceRef)
deriving DecidableEq, Repr

/-- The `POST /api/generate` handler of `server.ts` (markdown variant):
validate the keyword and API key, call the model, reject an absent or
blank response text, parse the markdown, extract the grounding sources
(whose `TypeError` is caught by the surrounding `try`), and answer. -/
def generateEndpoint (keyword : Option String) (apiKeySet : Bool)
    (upstream : Except Unit GenAIResponse) : GenResult :=
  match keyword with
  | none => .badRequest
  | some k =>
    if k = "" then .badRequest
    else if !apiKeySet then .configError
    else
      match upstream with
      | .error _ => .genError
      | .ok resp =>
        match resp.text with
        | none => .genError
        | some text =>
          if jsTrim text = "" then .genError
          else
            let tc := parseMarkdown k text
            match extractSources resp.groundingChunks with
            | .error _ => .genError
            | .ok sources => .ok tc.fst tc.snd sources

/-- The structured-schema validation of `generateBlogPost`
(`geminiService.ts`): accept the parsed object exactly when `title` and
`content` are both strings (`none` models an absent or non-string field);
emptiness is not checked. -/
def validateParsedBlog (title : Option String) (content : Option String) :
    Except Unit (String × String) :=
  match title, content with
  | some t, some c => .ok (t, c)
  | _, _ => .error ()

/-- `addArticle` of `firebaseService.ts`: `collection.add({...data,
createdAt: serverTimestamp()})` — the store materialises a fresh document id
and stamps `createdAt` with the server clock. -/
def addArticle (coll : List StoredDoc) (freshId : String) (serverNow : Nat)
    (title content keyword : String) : List StoredDoc × String :=
  (coll ++ [⟨freshId, title, content, keyword, some (.ts serverNow)⟩], freshId)

/-- `updateArticle` of `firebaseService.ts`: `doc(id).update(data)` replaces
exactly the supplied fields of the named document and fails if it does not
exist. -/
def updateArticle (coll : List StoredDoc) (id title content keyword : String) :
    Except Unit (List StoredDoc) :=
  if coll.any (fun d => d.id == id) then
    .ok (coll.map (fun d =>
      if d.id == id then
        { d with title := title, content := content, keyword := keyword }
      else d))
  else .error ()

/-- The in-memory draft held by the editor (`currentArticle`); a freshly
generated draft carries `id = ""` and a client-clock `createdAt`. -/
structure DraftArticle where
  id : String
  title : String
  content : String
  keyword : String
  createdAt : String
deriving DecidableEq, Repr

/-- `handlePublish` of `App.tsx`: an edit of an existing article updates
only `title`, `content` and `keyword` on its document; a new draft is
inserted via `addArticle` (which never sends the draft's `id` or
`createdAt`). -/
def handlePublish (isEditingExisting : Bool) (art : DraftArticle)
    (coll : List StoredDoc) (freshId : String) (serverNow : Nat) :
    Except Unit (List StoredDoc) :=
  if isEditingExisting then
    updateArticle coll art.id art.title art.content art.keyword
  else
    .ok (addArticle coll freshId serverNow art.title art.content art.keyword).fst

/-- `articlesPerPage = 20`. -/
def articlesPerPage : Nat := 20

/-- The client's `pageStartCursors` map, page number to start cursor
(`null` for page 1). -/
abbrev CursorMap := List (Nat × Option StoredDoc)

/-- `pageStartCursors.has(page)`. -/
def cursorsHas (m : CursorMap) (page : Nat) : Bool :=
  m.any (fun e => e.fst == page)

/-- `pageStartCursors.get(page)` (flattening the stored `null`). -/
def cursorsGet (m : CursorMap) (page : Nat) : Option StoredDoc :=
  (m.find? (fun e => e.fst == page)).bind (fun e => e.snd)

/-- `pageStartCursors.set(page, cursor)`. -/
def cursorsInsert (m : CursorMap) (page : Nat) (c : Option StoredDoc) :
    CursorMap :=
  m ++ [(page, c)]

/-- `hasNextPage = pageStartCursors.has(currentPage + 1) ||
articles.length === articlesPerPage`. -/
def hasNextPage (cursors : CursorMap) (currentPage : Nat)
    (articles : List Article) : Bool :=
  cursorsHas cursors (currentPage + 1) || articles.length == articlesPerPage

/-- The `次へ` (next) button: `disabled = currentPage === totalPages ||
!hasNextPage`; this is its negation. -/
def nextButtonEnabled (currentPage totalPages : Nat) (hasNext : Bool) : Bool :=
  !(currentPage == totalPages || !hasNext)

/-- The claim's reading of when "next" is enabled, written from the spec's
words alone: a cursor for the following page is cached or the just-fetched
page was full-sized. -/
def specNextEnabled (cursors : CursorMap) (currentPage : Nat)
    (articles : List Article) : Bool :=
  cursorsHas cursors (currentPage + 1) || articles.length == articlesPerPage

/-- `handlePageChange`: move to `page` only when `1 ≤ page ≤ totalPages` and
its start cursor is cached; otherwise the current page is kept. -/
def handlePageChange (currentPage totalPages : Nat) (cursors : CursorMap)
    (page : Nat) : Nat :=
  if 1 ≤ page ∧ page ≤ totalPages ∧ cursorsHas cursors page then page
  else currentPage

/-- Result of one run of the `fetchArticlesForPage` effect: the page shown
afterwards, the fetched articles (`none` when no fetch happened), the
cursor map afterwards, and whether a fetch was performed. -/
structure FetchStep where
  currentPage : Nat
  articles : Option (List Article)
  cursors : CursorMap
  fetched : Bool
deriving DecidableEq, Repr

/-- `fetchArticlesForPage` of `App.tsx`: without a cached cursor for the
requested page, reset to page 1 and fetch nothing; otherwise fetch the page
after the cached cursor and, if documents came back, cache the cursor for
the next page. -/
def fetchArticlesForPage (coll : List StoredDoc) (now : Nat)
    (cursors : CursorMap) (currentPage : Nat) : FetchStep :=
  if !(cursorsHas cursors currentPage) then
    ⟨1, none, cursors, false⟩
  else
    let cursor := cursorsGet cursors currentPage
    let docs := getArticles coll articlesPerPage cursor
    let fetchedArticles := docs.map (toArticle now)
    let cursors' :=
      match docs.getLast? with
      | some lastDoc =>
        if !(cursorsHas cursors (currentPage + 1)) then
          cursorsInsert cursors (currentPage + 1) (some lastDoc)
        else cursors
      | none => cursors
    ⟨currentPage, some fetchedArticles, cursors', true⟩

/-! ### Order lemmas for the query key -/

theorem charListLtB_trans : ∀ {a b c : List Char}, charListLtB a b = true →
    charListLtB b c = true → charListLtB a c = true
  | [], [], _, hab, _ => by simp [charListLtB] at hab
  | [], _ :: _, [], _, hbc => by simp [charListLtB] at hbc
  | [], _ :: _, _ :: _, _, _ => rfl
  | _ :: _, [], _, hab, _ => by simp [charListLtB] at hab
  | _ :: _, _ :: _, [], _, hbc => by simp [charListLtB] at hbc
  | a :: as, b :: bs, c :: cs, hab, hbc => by
      simp only [charListLtB, Bool.or_eq_true, Bool.and_eq_true,
        decide_eq_true_eq, beq_iff_eq] at *
      rcases hab with h1 | ⟨rfl, h1⟩ <;> rcases hbc with h2 | ⟨rfl, h2⟩
      · exact Or.inl (lt_trans h1 h2)
      · exact Or.inl h1
      · exact Or.inl h2
      · exact Or.inr ⟨rfl, charListLtB_trans h1 h2⟩

theorem charListLtB_total_ne : ∀ {a b : List Char}, a ≠ b →
    charListLtB a b = true ∨ charListLtB b a = true
  | [], [], h => absurd rfl h
  | [], _ :: _, _ => Or.inl rfl
  | _ :: _, [], _ => Or.inr rfl
  | a :: as, b :: bs, h => by
      simp only [charListLtB, Bool.or_eq_true, Bool.and_eq_true,
        decide_eq_true_eq, beq_iff_eq]
      by_cases hab : a = b
      · subst hab
        have has : as ≠ bs := fun he => h (by rw [he])
        rcases charListLtB_total_ne has with h1 | h1
        · exact Or.inl (Or.inr ⟨rfl, h1⟩)
        · exact Or.inr (Or.inr ⟨rfl, h1⟩)
      · rcases lt_or_gt_of_ne hab with h1 | h1
        · exact Or.inl (Or.inl h1)
        · exact Or.inr (Or.inl h1)

theorem strLtB_trans {a b c : String} (hab : strLtB a b = true)
    (hbc : strLtB b c = true) : strLtB a c = true :=
  charListLtB_trans hab hbc

theorem strLtB_total_ne {a b : String} (h : a ≠ b) :
    strLtB a b = true ∨ strLtB b a = true :=
  charListLtB_total_ne (fun he => h (by cases a; cases b; simp_all))

theorem strLeB_refl (a : String) : strLeB a a = true := by simp [strLeB]

theorem strLeB_total (a b : String) : strLeB a b = true ∨ strLeB b a = true := by
  by_cases h : a = b
  · subst h; exact Or.inl (strLeB_refl a)
  · rcases strLtB_total_ne h with h1 | h1
    · exact Or.inl (by simp [strLeB, h1])
    · exact Or.inr (by simp [strLeB, h1])

theorem strLeB_trans {a b c : String} (hab : strLeB a b = true)
    (hbc : strLeB b c = true) : strLeB a c = true := by
  simp only [strLeB, Bool.or_eq_true, beq_iff_eq] at *
  rcases hab with h1 | rfl <;> rcases hbc with h2 | rfl
  · exact Or.inl (strLtB_trans h1 h2)
  · exact Or.inl h1
  · exact Or.inl h2
  · exact Or.inr rfl

theorem fieldValLtB_trans : ∀ {a b c : FieldVal}, fieldValLtB a b = true →
    fieldValLtB b c = true → fieldValLtB a c = true
  | .ts _, .ts _, .ts _, hab, hbc => by
      simp only [fieldValLtB, decide_eq_true_eq] at *; omega
  | .ts _, .ts _, .str _, _, _ => rfl
  | .ts _, .str _, .str _, _, _ => rfl
  | .ts _, .str _, .ts _, _, hbc => by simp [fieldValLtB] at hbc
  | .str _, .ts _, _, hab, _ => by simp [fieldValLtB] at hab
  | .str _, .str _, .ts _, _, hbc => by simp [fieldValLtB] at hbc
  | .str _, .str _, .str _, hab, hbc => by
      exact strLtB_trans hab hbc

theorem fieldValLtB_total_ne : ∀ {a b : FieldVal}, a ≠ b →
    fieldValLtB a b = true ∨ fieldValLtB b a = true
  | .ts x, .ts y, h => by
      simp only [fieldValLtB, decide_eq_true_eq]
      have hxy : x ≠ y := fun he => h (by rw [he])
      omega
  | .ts _, .str _, _ => Or.inl rfl
  | .str _, .ts _, _ => Or.inr rfl
  | .str _, .str _, h => by
      exact strLtB_total_ne (fun he => h (by rw [he]))

theorem createdLtB_trans {a b c : Option FieldVal}
    (hab : createdLtB a b = true) (hbc : createdLtB b c = true) :
    createdLtB a c = true := by
  cases a <;> cases b <;> cases c <;> simp_all [createdLtB]
  exact fieldValLtB_trans hab hbc

theorem createdLtB_total_ne {a b : Option FieldVal} (h : a ≠ b) :
    createdLtB a b = true ∨ createdLtB b a = true := by
  cases a <;> cases b <;> simp_all [createdLtB]
  exact fieldValLtB_total_ne h

theorem docLE_refl (a : StoredDoc) : docLE a a = true := by
  simp [docLE, strLeB_refl]

theorem docLE_total (a b : StoredDoc) : docLE a b = true ∨ docLE b a = true := by
  unfold docLE
  by_cases h : a.createdAt = b.createdAt
  · rcases strLeB_total b.id a.id with hid | hid
    · left; simp [h, hid]
    · right; simp [h, hid]
  · rcases createdLtB_total_ne h with hlt | hlt
    · right; simp [hlt]
    · left; simp [hlt]

theorem docLE_trans {a b c : StoredDoc}
    (hab : docLE a b = true) (hbc : docLE b c = true) : docLE a c = true := by
  unfold docLE at *
  simp only [Bool.or_eq_true, Bool.and_eq_true, beq_iff_eq] at *
  rcases hab with h1 | ⟨h1e, h1i⟩ <;> rcases hbc with h2 | ⟨h2e, h2i⟩
  · exact Or.inl (createdLtB_trans h2 h1)
  · exact Or.inl (h2e ▸ h1)
  · exact Or.inl (h1e ▸ h2)
  · exact Or.inr ⟨h1e.trans h2e, strLeB_trans h2i h1i⟩

/-! ### The ordered query -/

theorem firestoreSort_sorted (coll : List StoredDoc) :
    List.Pairwise (fun a b => docLE a b = true) (firestoreSort coll) :=
  @List.sorted_insertionSort StoredDoc _ _ ⟨docLE_total⟩
    ⟨fun _ _ _ => docLE_trans⟩ _

theorem getArticles_sorted (coll : List StoredDoc) (pageSize : Nat)
    (cur : Option StoredDoc) :
    List.Pairwise (fun a b => docLE a b = true) (getArticles coll pageSize cur) := by
  have hs := firestoreSort_sorted coll
  unfold getArticles
  cases cur with
  | none => exact List.Pairwise.sublist (List.take_sublist _ _) hs
  | some c =>
    exact List.Pairwise.sublist
      ((List.take_sublist _ _).trans (List.filter_sublist _)) hs

theorem mem_of_getLast?_eq {α : Type} {l : List α} {x : α}
    (h : l.getLast? = some x) : x ∈ l := by
  cases l with
  | nil => simp at h
  | cons a t =>
    have hne : a :: t ≠ [] := by simp
    rw [List.getLast?_eq_getLast _ hne] at h
    exact (Option.some.inj h) ▸ List.getLast_mem hne

theorem pairwise_getLast_docLE : ∀ {l : List StoredDoc},
    List.Pairwise (fun a b => docLE a b = true) l →
    ∀ {x : StoredDoc}, l.getLast? = some x → ∀ e ∈ l, docLE e x = true
  | [], _, x, hx => by simp at hx
  | [a], _, x, hx => by
      intro e he
      simp only [List.getLast?_singleton, Option.some.injEq] at hx
      simp only [List.mem_singleton] at he
      subst hx; subst he
      exact docLE_refl _
  | a :: b :: t, hp, x, hx => by
      intro e he
      rw [List.getLast?_cons_cons] at hx
      rcases List.mem_cons.mp he with rfl | he'
      · exact List.rel_of_pairwise_cons hp (mem_of_getLast?_eq hx)
      · exact pairwise_getLast_docLE hp.of_cons hx e he'

/-- **C1**: the article list operation returns at most `pageSize` articles,
ordered by creation time descending with ties broken by document id
descending (the order `docLE`), each strictly after the cursor document when
one is supplied; and a page fetched with the cursor derived from a previous
page (its last document) never repeats a document of that page, the
collection being unchanged. -/
theorem getArticles_pagination (coll : List StoredDoc) (pageSize pageSize' : Nat)
    (cur : Option StoredDoc) (now : Nat) :
    (getArticlesMapped coll pageSize cur now).length ≤ pageSize ∧
    List.Pairwise (fun a b => docLE a b = true) (getArticles coll pageSize cur) ∧
    (∀ c, cur = some c → ∀ d ∈ getArticles coll pageSize cur, docAfterB c d = true) ∧
    (∀ lastDoc, (getArticles coll pageSize cur).getLast? = some lastDoc →
      ∀ d ∈ getArticles coll pageSize' (some lastDoc),
        d ∉ getArticles coll pageSize cur) := by
  refine ⟨?_, getArticles_sorted coll pageSize cur, ?_, ?_⟩
  · unfold getArticlesMapped
    rw [List.length_map]
    unfold getArticles
    cases cur <;> exact List.length_take_le _ _
  · rintro c rfl d hd
    unfold getArticles at hd
    exact List.of_mem_filter (List.mem_of_mem_take hd)
  · intro lastDoc hlast d hd hdIn
    have h1 : docLE d lastDoc = true :=
      pairwise_getLast_docLE (getArticles_sorted coll pageSize cur) hlast d hdIn
    have h2 : docAfterB lastDoc d = true := by
      unfold getArticles at hd
      exact List.of_mem_filter (List.mem_of_mem_take hd)
    rw [docAfterB, h1] at h2
    simp at h2

/-- Witness for C1 at a three-document collection, page size 2: the third
document, which opens page 2 (fetched with the cursor derived from page 1),
is not among the documents of page 1. -/
theorem getArticles_pagination_witness :
    (⟨"c", "t3", "c3", "k3", some (.ts 10)⟩ : StoredDoc) ∉
      getArticles
        [⟨"a", "t1", "c1", "k1", some (.ts 30)⟩,
         ⟨"b", "t2", "c2", "k2", some (.ts 20)⟩,
         ⟨"c", "t3", "c3", "k3", some (.ts 10)⟩] 2 none :=
  (getArticles_pagination
      [⟨"a", "t1", "c1", "k1", some (.ts 30)⟩,
       ⟨"b", "t2", "c2", "k2", some (.ts 20)⟩,
       ⟨"c", "t3", "c3", "k3", some (.ts 10)⟩] 2 5 none 0).2.2.2
    ⟨"b", "t2", "c2", "k2", some (.ts 20)⟩ (by decide)
    ⟨"c", "t3", "c3", "k3", some (.ts 10)⟩ (by decide)

/-- **C9**: when the `startAfter` parameter of `GET /api/articles` names a
document id that does not exist in the collection, the cursor is silently
ignored and the endpoint returns the first page — the same (non-error)
response as a request without a cursor. -/
theorem serverGetArticles_unknown_cursor (coll : List StoredDoc) (limit : Nat)
    (sid : String) (now : Nat) (h : ∀ d ∈ coll, d.id ≠ sid) :
    serverGetArticles coll limit (some sid) now =
      serverGetArticles coll limit none now := by
  unfold serverGetArticles
  have hf : coll.find? (fun d => d.id == sid) = none := by
    apply List.find?_eq_none.mpr
    intro d hd
    simp [h d hd]
  simp only [hf]

/-- Witness for C9: a one-document collection queried with the unknown
cursor id `"zzz"`. -/
theorem serverGetArticles_unknown_cursor_witness :
    serverGetArticles [⟨"a", "t", "c", "k", some (.ts 5)⟩] 10 (some "zzz") 0 =
      serverGetArticles [⟨"a", "t", "c", "k", some (.ts 5)⟩] 10 none 0 :=
  serverGetArticles_unknown_cursor [⟨"a", "t", "c", "k", some (.ts 5)⟩] 10
    "zzz" 0 (by decide)

/-- **C5**: publishing a freshly generated draft (the non-editing branch,
taken exactly for drafts, whose id is `""`) appends a new document whose
`createdAt` is the store's server timestamp — the draft's own `createdAt`
and `id` are never sent; publishing an edited existing article rewrites
exactly `title`, `content` and `keyword` of the documents with the matching
id, the rewrite keeping every document's `id` and `createdAt` and leaving
documents with other ids untouched. -/
theorem handlePublish_frame (art : DraftArticle) (coll : List StoredDoc)
    (freshId : String) (serverNow : Nat) :
    (handlePublish false art coll freshId serverNow =
      .ok (coll ++ [⟨freshId, art.title, art.content, art.keyword,
        some (.ts serverNow)⟩])) ∧
    ((coll.any (fun d => d.id == art.id)) = true →
      handlePublish true art coll freshId serverNow = .ok (coll.map (fun d =>
        if d.id == art.id then
          { d with title := art.title, content := art.content, keyword := art.keyword }
        else d))) ∧
    (∀ d : StoredDoc,
      ((if d.id == art.id then
          ({ d with title := art.title, content := art.content, keyword := art.keyword } : StoredDoc)
        else d) : StoredDoc).id = d.id ∧
      ((if d.id == art.id then
          ({ d with title := art.title, content := art.content, keyword := art.keyword } : StoredDoc)
        else d) : StoredDoc).createdAt = d.createdAt ∧
      (d.id ≠ art.id →
        (if d.id == art.id then
          ({ d with title := art.title, content := art.content, keyword := art.keyword } : StoredDoc)
        else d) = d)) := by
  refine ⟨rfl, ?_, ?_⟩
  · intro hmem
    unfold handlePublish updateArticle
    simp only [if_true, hmem]
  · intro d
    by_cases hid : (d.id == art.id) = true
    · exact ⟨by simp [hid], by simp [hid],
        fun hne => absurd (by simpa using hid) hne⟩
    · exact ⟨by simp [hid], by simp [hid], fun _ => by simp [hid]⟩

/-- Witness for C5: inserting a fresh draft into a one-document collection
appends a server-stamped document, and saving an edit of document `"x"`
rewrites its text fields while keeping its `createdAt`. -/
theorem handlePublish_frame_witness :
    handlePublish false ⟨"", "T", "C", "K", "zzz"⟩
        [⟨"x", "t0", "c0", "k0", some (.ts 7)⟩] "fresh" 99 =
      .ok [⟨"x", "t0", "c0", "k0", some (.ts 7)⟩,
        ⟨"fresh", "T", "C", "K", some (.ts 99)⟩] ∧
    handlePublish true ⟨"x", "T", "C", "K", "zzz"⟩
        [⟨"x", "t0", "c0", "k0", some (.ts 7)⟩] "fresh" 99 =
      .ok [⟨"x", "T", "C", "K", some (.ts 7)⟩] := by
  constructor
  · exact (handlePublish_frame ⟨"", "T", "C", "K", "zzz"⟩
      [⟨"x", "t0", "c0", "k0", some (.ts 7)⟩] "fresh" 99).1
  · have h := (handlePublish_frame ⟨"x", "T", "C", "K", "zzz"⟩
      [⟨"x", "t0", "c0", "k0", some (.ts 7)⟩] "fresh" 99).2.1 (by decide)
    rw [h]
    rfl

/-- **C3**: any two sitemap requests within the TTL of the last successful
build are answered with the byte-identical cached XML, whatever their base
URL or the collection contents (the cache is keyed only by wall-clock
time), perform no build and leave the cache unchanged; the first request
after TTL expiry (with the base URL configured and the fetch succeeding)
performs exactly one synchronous rebuild and stores the rebuilt XML with
its request time. -/
theorem sitemap_cache_spec (c : SitemapCache) (t1 t2 now : Int)
    (u1 u2 u : Option String) (f1 f2 : Except Unit (List StoredDoc))
    (docs : List StoredDoc)
    (hxml : c.xml ≠ "") (h1 : t1 - c.timestamp < SITEMAP_CACHE_DURATION)
    (h2 : t2 - c.timestamp < SITEMAP_CACHE_DURATION)
    (hexp : ¬(c.xml ≠ "" ∧ now - c.timestamp < SITEMAP_CACHE_DURATION))
    (hcfg : u.getD "" ≠ "") :
    (handleSitemapRequest c t1 u1 f1).response = .ok c.xml ∧
    (handleSitemapRequest c t2 u2 f2).response = .ok c.xml ∧
    (handleSitemapRequest c t1 u1 f1).cache = c ∧
    (handleSitemapRequest c t1 u1 f1).builds = 0 ∧
    (handleSitemapRequest c now u (.ok docs)).builds = 1 ∧
    (handleSitemapRequest c now u (.ok docs)).cache =
      ⟨buildSitemapXml (u.getD "") docs, now⟩ := by
  unfold handleSitemapRequest
  rw [if_pos ⟨hxml, h1⟩, if_pos ⟨hxml, h2⟩, if_neg hexp, if_neg hcfg]
  exact ⟨rfl, rfl, rfl, rfl, rfl, rfl⟩

/-- Witness for C3: a warm cache `⟨"cached", 0⟩` serves two in-TTL requests
(with different base URLs and fetch outcomes) identically without
rebuilding, and an expired request rebuilds exactly once. -/
theorem sitemap_cache_spec_witness :
    (handleSitemapRequest ⟨"cached", 0⟩ 100 (some "https://a.example")
      (.ok [])).response = .ok "cached" ∧
    (handleSitemapRequest ⟨"cached", 0⟩ 200 none
      (.error ())).response = .ok "cached" ∧
    (handleSitemapRequest ⟨"cached", 0⟩ 100 (some "https://a.example")
      (.ok [])).cache = ⟨"cached", 0⟩ ∧
    (handleSitemapRequest ⟨"cached", 0⟩ 100 (some "https://a.example")
      (.ok [])).builds = 0 ∧
    (handleSitemapRequest ⟨"cached", 0⟩ 5000000 (some "https://e.example")
      (.ok [])).builds = 1 ∧
    (handleSitemapRequest ⟨"cached", 0⟩ 5000000 (some "https://e.example")
      (.ok [])).cache = ⟨buildSitemapXml "https://e.example" [], 5000000⟩ :=
  sitemap_cache_spec ⟨"cached", 0⟩ 100 200 5000000 (some "https://a.example")
    none (some "https://e.example") (.ok []) (.error ()) []
    (by decide) (by decide) (by decide) (by decide) (by decide)

/-- **C4**: when the cache cannot serve the request (no cached XML or TTL
expired) and the article fetch fails, the request is answered with the
build-failure server error and the cache entry — string and timestamp — is
exactly what it was before the request. -/
theorem sitemap_build_failure_preserves_cache (c : SitemapCache) (now : Int)
    (u : Option String)
    (hmiss : ¬(c.xml ≠ "" ∧ now - c.timestamp < SITEMAP_CACHE_DURATION))
    (hcfg : u.getD "" ≠ "") :
    (handleSitemapRequest c now u (.error ())).response = .buildError ∧
    (handleSitemapRequest c now u (.error ())).cache = c := by
  unfold handleSitemapRequest
  rw [if_neg hmiss, if_neg hcfg]
  exact ⟨rfl, rfl⟩

/-- Witness for C4: a failing fetch on an expired cache answers 500 and
leaves the old entry `⟨"old", 0⟩` in place. -/
theorem sitemap_build_failure_preserves_cache_witness :
    (handleSitemapRequest ⟨"old", 0⟩ 5000000 (some "https://e.example")
      (.error ())).response = .buildError ∧
    (handleSitemapRequest ⟨"old", 0⟩ 5000000 (some "https://e.example")
      (.error ())).cache = ⟨"old", 0⟩ :=
  sitemap_build_failure_preserves_cache ⟨"old", 0⟩ 5000000
    (some "https://e.example") (by decide) (by decide)

/-! ### Grounding-source extraction (C7) -/

theorem mapChunks_all_web {chunks : List GroundingChunk}
    (h : ∀ ch ∈ chunks, ch.web ≠ none) :
    mapChunks chunks = .ok ((chunks.filterMap (fun ch => ch.web)).map
      (fun w => ⟨w.uri, w.title⟩)) := by
  induction chunks with
  | nil => rfl
  | cons c cs ih =>
    cases hc : c.web with
    | none => exact absurd hc (h c (by simp))
    | some w =>
      simp [mapChunks, chunkSource, hc,
        ih (fun ch hch => h ch (by simp [hch]))]

theorem mapChunks_missing_web : ∀ {chunks : List GroundingChunk},
    (∃ ch ∈ chunks, ch.web = none) → mapChunks chunks = .error () := by
  intro chunks
  induction chunks with
  | nil => rintro ⟨ch, h, _⟩; simp at h
  | cons c cs ih =>
    rintro ⟨ch, hmem, hweb⟩
    rcases List.mem_cons.mp hmem with rfl | hmem'
    · simp [mapChunks, chunkSource, hweb]
    · cases hc : c.web with
      | none => simp [mapChunks, chunkSource, hc]
      | some w => simp [mapChunks, chunkSource, hc, ih ⟨ch, hmem', hweb⟩]

/-- Counterexample to C7 as stated: a grounding entry missing its `web`
object entirely is not silently dropped — the whole generation request
fails with the generation error. -/
theorem generate_missing_web_fails :
    generateEndpoint (some "k") true (.ok ⟨some "body", [⟨none⟩]⟩) =
      .genError := by decide

/-- **C7** (amended): when every grounding chunk carries a `web` object,
the extracted citation sources are exactly the entries with a truthy
(present and non-empty) URI and title, malformed ones silently dropped;
but a chunk missing the `web` object entirely makes the extraction — and
with it the generation request — fail. -/
theorem extractSources_spec (chunks : List GroundingChunk) :
    ((∀ ch ∈ chunks, ch.web ≠ none) →
      extractSources chunks = .ok
        (((chunks.filterMap (fun ch => ch.web)).filter
            (fun w => truthy w.uri && truthy w.title)).map
          (fun w => ⟨w.uri, w.title⟩))) ∧
    ((∃ ch ∈ chunks, ch.web = none) → extractSources chunks = .error ()) := by
  constructor
  · intro h
    unfold extractSources
    rw [mapChunks_all_web h]
    simp only [Except.map, List.filter_map]
    rfl
  · intro h
    unfold extractSources
    rw [mapChunks_missing_web h]
    rfl

/-- Witness for C7 at three concrete chunks: an entry with empty URI and an
entry with an absent title are dropped, the well-formed one is kept. -/
theorem extractSources_spec_witness :
    extractSources
        [⟨some ⟨some "https://s.example", some "S"⟩⟩,
         ⟨some ⟨some "", some "T"⟩⟩,
         ⟨some ⟨some "https://u.example", none⟩⟩] =
      .ok [⟨some "https://s.example", some "S"⟩] := by
  have h := (extractSources_spec
    [⟨some ⟨some "https://s.example", some "S"⟩⟩,
     ⟨some ⟨some "", some "T"⟩⟩,
     ⟨some ⟨some "https://u.example", none⟩⟩]).1 (by decide)
  rw [h]
  rfl

/-! ### Markdown title extraction (C8) -/

theorem jsFindIndex_spec (p : String → Bool) :
    ∀ (l : List String) (i : Nat), jsFindIndex p l = some i →
      p (l.getD i "") = true ∧ ∀ j < i, p (l.getD j "") = false := by
  intro l
  induction l with
  | nil => intro i h; simp [jsFindIndex] at h
  | cons a t ih =>
    intro i h
    by_cases hpa : p a = true
    · simp only [jsFindIndex, hpa, if_true, Option.some.injEq] at h
      subst h
      exact ⟨by simpa using hpa, fun j hj => absurd hj (by omega)⟩
    · simp only [jsFindIndex, hpa, if_false, Bool.false_eq_true,
        Option.map_eq_some'] at h
      obtain ⟨i', hi', rfl⟩ := h
      obtain ⟨h1, h2⟩ := ih i' hi'
      refine ⟨by simpa using h1, ?_⟩
      intro j hj
      cases j with
      | zero => simpa using hpa
      | succ j' => simpa using h2 j' (by omega)

/-- **C8**: when some line of the response text starts with the `"# "`
heading marker, the title is the first such line's text after the marker
(trimmed) and the content is the remaining lines re-joined and trimmed;
with no such line the title is the keyword template and the content the
full response text. -/
theorem parseMarkdown_title_extraction (keyword text : String) :
    (∀ i, jsFindIndex (fun l => jsStartsWith l "# ") (splitOnChar '\n' text) =
        some i →
      parseMarkdown keyword text =
        (jsTrim (jsDrop ((splitOnChar '\n' text).getD i "") 2),
         jsTrim (joinWith '\n' ((splitOnChar '\n' text).drop (i + 1)))) ∧
      jsStartsWith ((splitOnChar '\n' text).getD i "") "# " = true ∧
      (∀ j < i, jsStartsWith ((splitOnChar '\n' text).getD j "") "# " = false)) ∧
    (jsFindIndex (fun l => jsStartsWith l "# ") (splitOnChar '\n' text) = none →
      parseMarkdown keyword text = (defaultTitle keyword, text)) := by
  constructor
  · intro i hi
    refine ⟨?_, (jsFindIndex_spec _ _ i hi).1, (jsFindIndex_spec _ _ i hi).2⟩
    simp only [parseMarkdown, hi]
  · intro hnone
    simp only [parseMarkdown, hnone]

/-- Witness for C8: the second line of `"intro\n# My Title \nbody"` is the
first heading line; its trimmed text becomes the title, the rest the
content. -/
theorem parseMarkdown_title_extraction_witness :
    parseMarkdown "kw" "intro\n# My Title \nbody" = ("My Title", "body") := by
  have h := (parseMarkdown_title_extraction "kw" "intro\n# My Title \nbody").1
    1 (by decide)
  rw [h.1]
  decide

/-! ### The generate endpoint (C2) -/

/-- Counterexample to C2 as stated: on the upstream response text
`"# Title"` (non-empty, passing the blank check) the generation endpoint
returns a result whose `content` is the empty string. -/
theorem generateEndpoint_empty_content :
    generateEndpoint (some "k") true (.ok ⟨some "# Title", []⟩) =
      .ok "Title" "" [] := by decide

/-- **C2** (amended): for a non-empty keyword and a configured API key the
generate operation either fails with the generation error or returns a
result; both title and content are guaranteed non-empty when no line of
the response text starts with the `"# "` heading marker (the title falls
back to the keyword template, the content to the full non-blank text); a
heading line yields its trimmed text and the trimmed remainder, either of
which may be empty.  The structured-schema variant checks only that both
fields are strings: it accepts two empty strings. -/
theorem generateEndpoint_fields (k : String) (hk : k ≠ "")
    (upstream : Except Unit GenAIResponse) :
    (generateEndpoint (some k) true upstream = .genError ∨
      ∃ t c s, generateEndpoint (some k) true upstream = .ok t c s) ∧
    (∀ resp text sources, upstream = .ok resp → resp.text = some text →
      jsTrim text ≠ "" →
      extractSources resp.groundingChunks = .ok sources →
      jsFindIndex (fun l => jsStartsWith l "# ") (splitOnChar '\n' text) =
        none →
      generateEndpoint (some k) true upstream =
        .ok (defaultTitle k) text sources ∧
      defaultTitle k ≠ "" ∧ text ≠ "") ∧
    validateParsedBlog (some "") (some "") = .ok ("", "") := by
  refine ⟨?_, ?_, rfl⟩
  · cases upstream with
    | error e => exact Or.inl (by simp [generateEndpoint, hk])
    | ok resp =>
      cases htext : resp.text with
      | none => exact Or.inl (by simp [generateEndpoint, hk, htext])
      | some text =>
        by_cases htrim : jsTrim text = ""
        · exact Or.inl (by simp [generateEndpoint, hk, htext, htrim])
        · cases hsrc : extractSources resp.groundingChunks with
          | error e =>
            exact Or.inl (by simp [generateEndpoint, hk, htext, htrim, hsrc])
          | ok sources =>
            exact Or.inr ⟨(parseMarkdown k text).1, (parseMarkdown k text).2,
              sources, by simp [generateEndpoint, hk, htext, htrim, hsrc]⟩
  · rintro resp text sources rfl htext htrim hsrc hidx
    have hne : text ≠ "" := fun he => htrim (by rw [he]; rfl)
    have hdt : defaultTitle k ≠ "" := by
      intro h
      have := congrArg String.data h
      simp [defaultTitle] at this
    refine ⟨?_, hdt, hne⟩
    simp [generateEndpoint, hk, htext, htrim, hsrc, parseMarkdown, hidx]

/-- Witness for C2 at the heading-free response `"hello"`: the endpoint
answers with a non-empty templated title and the non-empty full text. -/
theorem generateEndpoint_fields_witness :
    generateEndpoint (some "k") true (.ok ⟨some "hello", []⟩) =
      .ok (defaultTitle "k") "hello" [] ∧
    defaultTitle "k" ≠ "" ∧ ("hello" : String) ≠ "" :=
  (generateEndpoint_fields "k" (by decide) (.ok ⟨some "hello", []⟩)).2.1
    ⟨some "hello", []⟩ "hello" [] rfl rfl (by decide) rfl (by decide)

/-! ### Client pagination state machine (C6) -/

/-- Counterexample to C6 as stated: with the cursor for page 2 cached and a
full 20-article page but `currentPage = totalPages = 1`, the claim's
next-enabled condition holds while the rendered next button is disabled. -/
theorem nextButton_lastPage_counterexample :
    specNextEnabled [(1, none), (2, some ⟨"a", "t", "c", "k", some (.ts 1)⟩)] 1
        (List.replicate 20 ⟨"a", "t", "c", "k", "d"⟩) = true ∧
    nextButtonEnabled 1 1
      (hasNextPage [(1, none), (2, some ⟨"a", "t", "c", "k", some (.ts 1)⟩)] 1
        (List.replicate 20 ⟨"a", "t", "c", "k", "d"⟩)) = false := by decide

/-- **C6** (amended): the next transition is enabled exactly when the
current page is not the count-derived last page AND (a cursor for the next
page is cached or the just-fetched page was full-sized); `handlePageChange`
— used by both buttons — moves only to in-range pages whose start cursor is
cached (so "previous" reaches only cached pages) and otherwise keeps the
page; and the fetch effect, asked for a page with no cached cursor, resets
to page 1 without fetching and leaves the cursors unchanged. -/
theorem pagination_state_machine (cursors : CursorMap)
    (currentPage totalPages page : Nat) (articles : List Article)
    (coll : List StoredDoc) (now : Nat) :
    (nextButtonEnabled currentPage totalPages
        (hasNextPage cursors currentPage articles) = true ↔
      (currentPage ≠ totalPages ∧
        (cursorsHas cursors (currentPage + 1) = true ∨
          articles.length = articlesPerPage))) ∧
    (¬(1 ≤ page ∧ page ≤ totalPages ∧ cursorsHas cursors page = true) →
      handlePageChange currentPage totalPages cursors page = currentPage) ∧
    (handlePageChange currentPage totalPages cursors page ≠ currentPage →
      cursorsHas cursors page = true ∧ 1 ≤ page ∧ page ≤ totalPages ∧
      handlePageChange currentPage totalPages cursors page = page) ∧
    (cursorsHas cursors currentPage = false →
      fetchArticlesForPage coll now cursors currentPage =
        ⟨1, none, cursors, false⟩) := by
  refine ⟨?_, ?_, ?_, ?_⟩
  · unfold nextButtonEnabled hasNextPage
    simp only [Bool.not_eq_true', Bool.or_eq_false_iff, Bool.not_eq_false,
      Bool.not_eq_false', Bool.or_eq_true, beq_iff_eq, beq_eq_false_iff_ne,
      ne_eq]
  · intro h
    unfold handlePageChange
    rw [if_neg (fun hc => h hc)]
  · intro hne
    by_cases hcond : 1 ≤ page ∧ page ≤ totalPages ∧
        cursorsHas cursors page = true
    · exact ⟨hcond.2.2, hcond.1, hcond.2.1,
        by unfold handlePageChange; rw [if_pos hcond]⟩
    · exact absurd (by unfold handlePageChange; rw [if_neg hcond]) hne
  · intro h
    unfold fetchArticlesForPage
    simp [h]

/-- Witness for C6: with only page 1's cursor cached and a full first page,
next is enabled below the last page; a jump to page 3 is refused; asking
the fetch effect for the uncached page 2 resets to page 1 without
fetching. -/
theorem pagination_state_machine_witness :
    nextButtonEnabled 1 3
      (hasNextPage [(1, none)] 1
        (List.replicate 20 ⟨"a", "t", "c", "k", "d"⟩)) = true ∧
    handlePageChange 1 3 [(1, none)] 3 = 1 ∧
    fetchArticlesForPage [] 0 [(1, none)] 2 = ⟨1, none, [(1, none)], false⟩ := by
  refine ⟨?_, ?_, ?_⟩
  · exact (pagination_state_machine [(1, none)] 1 3 3
      (List.replicate 20 ⟨"a", "t", "c", "k", "d"⟩) [] 0).1.mpr
      ⟨by decide, Or.inr (by decide)⟩
  · exact (pagination_state_machine [(1, none)] 1 3 3
      (List.replicate 20 ⟨"a", "t", "c", "k", "d"⟩) [] 0).2.1 (by decide)
  · exact (pagination_state_machine [(1, none)] 2 3 0
      (List.replicate 20 ⟨"a", "t", "c", "k", "d"⟩) [] 0).2.2.2 (by decide)

/-! ### Calendar facts for `toISOString` (C10) -/

set_option maxRecDepth 4000 in
theorem yoe_boundary : ∀ y < 400,
    yearOfEraNum (startOfYearOfEra y) = y ∧
    yearOfEraNum (startOfYearOfEra (y + 1) - 1) = y ∧
    startOfYearOfEra (y + 1) - startOfYearOfEra y ≤ 366 := by decide

set_option maxRecDepth 4000 in
theorem leap_boundary : ∀ y < 400,
    startOfYearOfEra (y + 1) - startOfYearOfEra y = 366 →
    isLeapYear (y + 1) = true := by decide

set_option maxRecDepth 4000 in
theorem doyMonthDayOk_all : ∀ doy < 366, doyMonthDayOk doy = true := by decide

theorem startOfYearOfEra_400 : startOfYearOfEra 400 = 146097 := by decide

theorem startOfYearOfEra_mono {a b : Nat} (h : a ≤ b) :
    startOfYearOfEra a ≤ startOfYearOfEra b := by
  have hk : ∀ k x, startOfYearOfEra x ≤ startOfYearOfEra (x + k) := by
    intro k
    induction k with
    | zero => intro x; exact Nat.le_of_eq (congrArg _ (Nat.add_zero x).symm)
    | succ n ih =>
      intro x
      have hstep : startOfYearOfEra (x + n) ≤ startOfYearOfEra (x + n + 1) := by
        unfold startOfYearOfEra; omega
      exact (ih x).trans hstep
  obtain ⟨k, rfl⟩ := Nat.exists_eq_add_of_le h
  exact hk k a

theorem yearOfEraNum_mono {a b : Nat} (hab : a ≤ b) (hb : b ≤ 146096) :
    yearOfEraNum a ≤ yearOfEraNum b := by
  have hnum : ∀ k x, x + k ≤ 146096 →
      x - x / 1460 + x / 36524 - x / 146096 ≤
        (x + k) - (x + k) / 1460 + (x + k) / 36524 - (x + k) / 146096 := by
    intro k
    induction k with
    | zero => intro x _; omega
    | succ n ih =>
      intro x hx
      have h1 := ih x (by omega)
      have h3 : (x + n) - (x + n) / 1460 + (x + n) / 36524 - (x + n) / 146096 ≤
          (x + n + 1) - (x + n + 1) / 1460 + (x + n + 1) / 36524 -
            (x + n + 1) / 146096 := by omega
      omega
  obtain ⟨k, rfl⟩ := Nat.exists_eq_add_of_le hab
  unfold yearOfEraNum
  exact Nat.div_le_div_right (hnum k a (by omega))

theorem exists_yoe_interval : ∀ (n doe : Nat), doe < startOfYearOfEra n →
    ∃ y, y < n ∧ startOfYearOfEra y ≤ doe ∧ doe < startOfYearOfEra (y + 1)
  | 0, doe, h => absurd h (by simp [startOfYearOfEra])
  | n + 1, doe, h => by
    by_cases h2 : doe < startOfYearOfEra n
    · obtain ⟨y, hy, h3, h4⟩ := exists_yoe_interval n doe h2
      exact ⟨y, by omega, h3, h4⟩
    · exact ⟨n, by omega, by omega, h⟩

theorem yearOfEraNum_eq {doe y : Nat} (hy : y < 400)
    (hge : startOfYearOfEra y ≤ doe) (hlt : doe < startOfYearOfEra (y + 1)) :
    yearOfEraNum doe = y := by
  obtain ⟨hb1, hb2, _⟩ := yoe_boundary y hy
  have hup : startOfYearOfEra (y + 1) ≤ 146097 := by
    have := startOfYearOfEra_mono (show y + 1 ≤ 400 by omega)
    have h400 := startOfYearOfEra_400
    omega
  have hmono1 : yearOfEraNum (startOfYearOfEra y) ≤ yearOfEraNum doe :=
    yearOfEraNum_mono hge (by omega)
  have hmono2 : yearOfEraNum doe ≤
      yearOfEraNum (startOfYearOfEra (y + 1) - 1) :=
    yearOfEraNum_mono (by omega) (by omega)
  omega

theorem isLeapYear_mod (k e : Nat) : isLeapYear (k + 400 * e) = isLeapYear k := by
  unfold isLeapYear
  have h4 : (k + 400 * e) % 4 = k % 4 := by omega
  have h100 : (k + 400 * e) % 100 = k % 100 := by omega
  have h400 : (k + 400 * e) % 400 = k % 400 := by omega
  rw [h4, h100, h400]

theorem civilFromDays_valid (z : Nat) :
    1 ≤ (civilFromDays z).month ∧ (civilFromDays z).month ≤ 12 ∧
    1 ≤ (civilFromDays z).day ∧
    (civilFromDays z).day ≤
      daysInMonth (civilFromDays z).year (civilFromDays z).month := by
  have hdoe : (z + 719468) % 146097 < 146097 := Nat.mod_lt _ (by norm_num)
  obtain ⟨y, hy, hge, hlt⟩ := exists_yoe_interval 400 ((z + 719468) % 146097)
    (by rw [startOfYearOfEra_400]; exact hdoe)
  have hyoe : yearOfEraNum ((z + 719468) % 146097) = y :=
    yearOfEraNum_eq hy hge hlt
  obtain ⟨_, _, hdiff⟩ := yoe_boundary y hy
  simp only [civilFromDays, hyoe]
  have hysmall : 365 * y + y / 4 - y / 100 = startOfYearOfEra y := by
    unfold startOfYearOfEra; omega
  set doe := (z + 719468) % 146097 with hdoe_def
  set era := (z + 719468) / 146097 with hera_def
  set doy := doe - (365 * y + y / 4 - y / 100) with hdoy_def
  have hdoy365 : doy ≤ 365 := by omega
  have hok := doyMonthDayOk_all doy (by omega)
  simp only [doyMonthDayOk, Bool.and_eq_true, decide_eq_true_eq] at hok
  set mp := (5 * doy + 2) / 153 with hmp_def
  set d := doy - (153 * mp + 2) / 5 + 1 with hd_def
  set m := if mp < 10 then mp + 3 else mp - 9 with hm_def
  obtain ⟨⟨⟨h1m, h2m⟩, h1d⟩, hlen⟩ := hok
  refine ⟨h1m, h2m, h1d, ?_⟩
  by_cases hm2 : m = 2
  · rw [if_pos hm2] at hlen
    simp only [Bool.or_eq_true, Bool.and_eq_true, decide_eq_true_eq,
      beq_iff_eq] at hlen
    rw [if_pos hm2.le]
    unfold daysInMonth
    rw [if_pos hm2]
    rcases hlen with hle | ⟨hd29, hdoy365'⟩
    · split
      · exact hle.trans (by norm_num)
      · exact hle
    · have hdiff366 : startOfYearOfEra (y + 1) - startOfYearOfEra y = 366 := by
        omega
      have hleap := leap_boundary y hy hdiff366
      have hyear : y + era * 400 + 1 = (y + 1) + 400 * era := by ring
      rw [hyear, isLeapYear_mod (y + 1) era, hleap]
      simp only [if_true]
      exact hd29.le
  · unfold daysInMonth
    rw [if_neg hm2]
    rw [if_neg hm2] at hlen
    by_cases h46 : m = 4 ∨ m = 6 ∨ m = 9 ∨ m = 11
    · rw [if_pos h46] at hlen ⊢
      simpa using hlen
    · rw [if_neg h46] at hlen ⊢
      simpa using hlen

theorem isoFormat_ne_empty (y m d h mi s ms : Nat) :
    isoFormat y m d h mi s ms ≠ "" := by
  intro hcontra
  have hlen := congrArg String.length hcontra
  have hz : ("Z" : String).length = 1 := rfl
  have h0 : ("" : String).length = 0 := rfl
  simp only [isoFormat, String.length_append] at hlen
  omega

theorem toISOString_valid (millis : Nat) :
    toISOString millis ≠ "" ∧ IsValidIso8601 (toISOString millis) := by
  obtain ⟨h1, h2, h3, h4⟩ := civilFromDays_valid (millis / 86400000)
  constructor
  · unfold toISOString
    exact isoFormat_ne_empty _ _ _ _ _ _ _
  · exact ⟨(civilFromDays (millis / 86400000)).year,
      (civilFromDays (millis / 86400000)).month,
      (civilFromDays (millis / 86400000)).day,
      millis / 3600000 % 24, millis / 60000 % 60, millis / 1000 % 60,
      millis % 1000, h1, h2, h3, h4,
      Nat.mod_lt _ (by norm_num), Nat.mod_lt _ (by norm_num),
      Nat.mod_lt _ (by norm_num), Nat.mod_lt _ (by norm_num), rfl⟩

theorem toArticle_createdAt_valid (now : Nat) (d : StoredDoc) :
    (toArticle now d).createdAt ≠ "" ∧
    IsValidIso8601 (toArticle now d).createdAt := by
  unfold toArticle
  cases hc : d.createdAt with
  | none => exact toISOString_valid now
  | some v =>
    cases v with
    | ts t => exact toISOString_valid t
    | str s => exact toISOString_valid now

/-- **C10**: every article returned by the paginated list endpoint and the
get-by-id operation carries a non-empty `createdAt` that is a valid
ISO-8601 UTC timestamp string; a document whose stored `createdAt` is a
timestamp is serialised with `toISOString`, and one whose `createdAt` is
missing or not a timestamp has the current clock time substituted instead
of the operation failing or returning a null field. -/
theorem articles_createdAt_valid (coll : List StoredDoc) (limit : Nat)
    (cur : Option String) (now : Nat) (id : String) :
    (∀ a ∈ (serverGetArticles coll limit cur now).1,
      a.createdAt ≠ "" ∧ IsValidIso8601 a.createdAt) ∧
    (∀ a, getArticleById coll id now = some a →
      a.createdAt ≠ "" ∧ IsValidIso8601 a.createdAt) ∧
    (∀ d : StoredDoc, (toArticle now d).createdAt =
      match d.createdAt with
      | some (.ts t) => toISOString t
      | _ => toISOString now) := by
  refine ⟨?_, ?_, fun d => rfl⟩
  · intro a ha
    unfold serverGetArticles at ha
    obtain ⟨d, _, rfl⟩ := List.mem_map.mp ha
    exact toArticle_createdAt_valid now d
  · intro a ha
    unfold getArticleById at ha
    obtain ⟨d, _, rfl⟩ := Option.map_eq_some'.mp ha
    exact toArticle_createdAt_valid now d

/-- Witness for C10: the article mapped from a document stamped
1970-01-02T00:00:00.123Z is returned by the list endpoint with a non-empty
valid ISO timestamp. -/
theorem articles_createdAt_valid_witness :
    (toArticle 0 ⟨"a", "t", "c", "k", some (.ts 86400123)⟩).createdAt ≠ "" ∧
    IsValidIso8601
      (toArticle 0 ⟨"a", "t", "c", "k", some (.ts 86400123)⟩).createdAt :=
  (articles_createdAt_valid [⟨"a", "t", "c", "k", some (.ts 86400123)⟩]
    10 none 0 "x").1
    (toArticle 0 ⟨"a", "t", "c", "k", some (.ts 86400123)⟩) (by decide)

end Blog
